import Mathlib

/-!
# Verification of the S3 regex tagger (s3-permanent-deletes/main.py)

A shallow embedding of the `S3RegexTagger` batch job.  The script reads a CSV
of (location, filename) hints, groups rows per location, issues one listing
query per location group, filters the listed keys client-side with a regex of
the shape  caret + escapedLocation + ( fn1.*\.mp4 | fn2.*\.mp4 | ... ) + dollar,
deduplicates all matches into one set, and then concurrently tags each match
with a fixed tag key/value, preserving the other tags that were fetched.

Modelling conventions:

* Strings are `List Char` (`Str`), so that decomposition lemmas are plain list
  reasoning.  String literals of the source appear via `String.toList`.
* Remote state is `Store : Str → Option (List Tag)`: `none` means the object
  does not exist; `some ts` is its current tag set.
* The behaviour of each remote call is driven by oracles:
  - `Fault` injects per-object call failures of `get_object_tagging` /
    `put_object_tagging` (a non-NoSuchKey ClientError, modelled with its
    code/message payload) and the catch-all unexpected exception.
  - `Listing` gives the pages a paginated list call delivers; boto3 paginators
    are lazy, so a ClientError can interrupt the pagination after some pages
    were already delivered and filtered (the code keeps those partial matches:
    `matching_objects` accumulates inside the `try`, and the `except` branch
    falls through to `return matching_objects`).
* The thread pools only parallelise independent per-key / per-group work and
  results are aggregated into order-insensitive counters and sets, so the
  embedding runs the submitted tasks sequentially (a linearisation).
* Python regex semantics matter for the match predicate: `.` matches every
  character except a newline, and a final `$` also matches just before one
  trailing newline.  `re.escape` makes location and filename characters
  literal, which the embedding reflects by matching them as literal lists.
-/

namespace S3Tagger

/-- Object keys, tag keys/values, messages: strings as lists of characters. -/
abbrev Str := List Char

/-- One entry of an S3 tag set, the dict with fields Key and Value. -/
structure Tag where
  key : Str
  val : Str
deriving DecidableEq

/-- The remote bucket state: each key either absent or carrying a tag set. -/
abbrev Store := Str → Option (List Tag)

/-- Per-call fault injection for one `tag_single_object` run: a non-NoSuchKey
ClientError of get_object_tagging (code, message), a ClientError of
put_object_tagging, and an arbitrary non-ClientError exception. -/
structure Fault where
  getErr : Option (Str × Str)
  putErr : Option (Str × Str)
  unexpectedErr : Option Str
deriving DecidableEq

/-- The fault-free behaviour: both remote calls act as the store dictates. -/
def Fault.ok : Fault := ⟨none, none, none⟩

/-- The (object_key, success, message) tuple returned by tag_single_object. -/
structure Outcome where
  objectKey : Str
  success : Bool
  message : Str
deriving DecidableEq

/-- Message literal of main.py line 108. -/
def notFoundMsg : Str := "Object not found".toList

/-- Message literal of main.py line 116. -/
def alreadyMsg : Str := "Tag already exists".toList

/-- Message literal of main.py line 129. -/
def taggedMsg : Str := "Successfully tagged".toList

/-- The f-string of main.py line 132 for a caught ClientError. -/
def awsErrMsg (code msg : Str) : Str :=
  "AWS Error: ".toList ++ code ++ " - ".toList ++ msg

/-- The f-string of main.py line 135 for a caught non-ClientError. -/
def unexpectedMsg (s : Str) : Str := "Unexpected error: ".toList ++ s

/-- Error code raised by S3 when putting tags on a nonexistent key. -/
def noSuchKeyCode : Str := "NoSuchKey".toList

/-- Error message raised by S3 when putting tags on a nonexistent key. -/
def noSuchKeyText : Str := "The specified key does not exist.".toList

/-- Point update of the bucket state performed by put_object_tagging. -/
def updateStore (store : Store) (k : Str) (ts : List Tag) : Store :=
  fun k2 => if k2 = k then some ts else store k2

/-- Embedding of `tag_single_object` (main.py lines 87-135).  Returns the
store after the call, whether a put_object_tagging write call was issued, and
the (object_key, success, message) tuple.

Faithful branch structure: get_object_tagging raising NoSuchKey (the key is
absent and no other fault intervenes) returns "Object not found"; any other
ClientError of the get is swallowed and the code continues with
existing_tags = []; if the target tag key is already present no write happens;
otherwise the whole tag set is rewritten as existing_tags plus the target
entry.  A ClientError of the put (injected, or NoSuchKey because the key does
not exist) is caught by the outer handler of line 131; any other exception is
caught at line 134.  The unexpected-exception case is modelled as leaving the
store unchanged.

`tagWithExisting` is the part after the get (lines 111-129 with the handler of
line 131): the already-present check, then the write of existingTags plus the
target entry, whose ClientError cases are the injected put fault and the
NoSuchKey raised when the object does not exist. -/
def tagWithExisting (store : Store) (fault : Fault) (objectKey tagKey tagVal : Str)
    (existingTags : List Tag) : Store × Bool × Outcome :=
  if existingTags.any fun t => t.key == tagKey then
    (store, false, ⟨objectKey, true, alreadyMsg⟩)
  else
    match fault.putErr with
    | some cm => (store, true, ⟨objectKey, false, awsErrMsg cm.1 cm.2⟩)
    | none =>
      match store objectKey with
      | none => (store, true, ⟨objectKey, false, awsErrMsg noSuchKeyCode noSuchKeyText⟩)
      | some _ =>
        (updateStore store objectKey (existingTags ++ [⟨tagKey, tagVal⟩]), true,
          ⟨objectKey, true, taggedMsg⟩)

def tagSingleObject (store : Store) (fault : Fault) (objectKey tagKey tagVal : Str) :
    Store × Bool × Outcome :=
  match fault.unexpectedErr with
  | some s => (store, false, ⟨objectKey, false, unexpectedMsg s⟩)
  | none =>
    match fault.getErr with
    | some _ => tagWithExisting store fault objectKey tagKey tagVal []
    | none =>
      match store objectKey with
      | none => (store, false, ⟨objectKey, false, notFoundMsg⟩)
      | some existingTags => tagWithExisting store fault objectKey tagKey tagVal existingTags

/-- The three summary counters of the tagging phase (lines 239-241). -/
structure Counters where
  successful : Nat
  alreadyTagged : Nat
  failed : Nat
deriving DecidableEq

/-- All counters start at zero. -/
def Counters.zero : Counters := ⟨0, 0, 0⟩

/-- Python's substring containment, the `in` operator on strings. -/
def hasSubstr (needle hay : Str) : Bool :=
  match hay with
  | [] => needle.isEmpty
  | c :: t => List.isPrefixOf needle (c :: t) || hasSubstr needle t

/-- Classification of one completed future (main.py lines 255-262): a
successful outcome whose message contains "already exists" counts as already
tagged, any other successful outcome as newly tagged, a failure as failed. -/
def classify (c : Counters) (o : Outcome) : Counters :=
  if o.success then
    if hasSubstr "already exists".toList o.message then
      ⟨c.successful, c.alreadyTagged + 1, c.failed⟩
    else
      ⟨c.successful + 1, c.alreadyTagged, c.failed⟩
  else
    ⟨c.successful, c.alreadyTagged, c.failed + 1⟩

/-- State threaded through the tagging phase: the bucket, the number of
put_object_tagging calls issued so far, and the counters. -/
structure PhaseState where
  store : Store
  writes : Nat
  counts : Counters

/-- One tagging task plus the aggregation of its result (lines 245-262). -/
def tagStep (faults : Str → Fault) (tagKey tagVal : Str)
    (st : PhaseState) (k : Str) : PhaseState :=
  let r := tagSingleObject st.store (faults k) k tagKey tagVal
  ⟨r.1, st.writes + (if r.2.1 then 1 else 0), classify st.counts r.2.2⟩

/-- Phase 2 of `tag_objects_by_pattern` (lines 237-262): one tagging task per
matched key; the thread pool is linearised into a left fold. -/
def runTaggingPhase (store : Store) (faults : Str → Fault) (keys : List Str)
    (tagKey tagVal : Str) : PhaseState :=
  keys.foldl (tagStep faults tagKey tagVal) ⟨store, 0, Counters.zero⟩

/-- Outcome of one paginated list_objects_v2 call for a location: either all
pages arrive, or a ClientError interrupts the (lazy) pagination after some
pages were delivered, or a non-ClientError exception escapes so that the
partial matches collected inside `list_matching_objects` are lost. -/
inductive Listing where
  | allPages (pages : List (List Str))
  | clientErrAfter (pages : List (List Str))
  | unexpectedFailure
deriving DecidableEq

/-- Denotation of the tail regex  .*\.mp4$  with Python semantics: some
middle part free of newlines, then the literal ".mp4", optionally followed by
the single trailing newline that a final dollar anchor tolerates. -/
def tailMatches (s : Str) : Bool :=
  (List.isSuffixOf ".mp4".toList s && !((s.take (s.length - 4)).contains '\n'))
  || (List.isSuffixOf ".mp4\n".toList s && !((s.take (s.length - 5)).contains '\n'))

/-- Denotation of the anchored pattern built at main.py lines 200-205:
caret, the escaped full location, an alternation over the escaped filenames
each followed by  .*\.mp4 , and a final dollar.  re.escape makes every
location and filename character literal. -/
def keyMatchesGroup (loc : Str) (fns : List Str) (k : Str) : Bool :=
  fns.any fun fn =>
    List.isPrefixOf (loc ++ fn) k && tailMatches (k.drop (loc ++ fn).length)

/-- Embedding of `list_matching_objects` (lines 55-85): filter every
delivered page against the compiled pattern; a ClientError that interrupts
pagination is caught and the matches collected so far are returned; the
body of `find_objects_for_location` (lines 207-213) additionally catches any
other exception, in which case no matches survive. -/
def listMatchingObjects (listing : Listing) (loc : Str) (fns : List Str) : List Str :=
  match listing with
  | .allPages pages => pages.flatten.filter (keyMatchesGroup loc fns)
  | .clientErrAfter pages => pages.flatten.filter (keyMatchesGroup loc fns)
  | .unexpectedFailure => []

/-- The namespace convention of line 197: TvShows/ + location + /. -/
def fullLocation (loc : Str) : Str :=
  "TvShows/".toList ++ loc ++ "/".toList

/-- Embedding of `find_objects_for_location` (lines 192-215): one listing
query per location group, keyed by the group's raw location. -/
def findObjectsForLocation (listings : Str → Listing) (g : Str × List Str) : List Str :=
  listMatchingObjects (listings g.1) (fullLocation g.1) g.2

/-- Python str.strip applied with the slash character: remove every leading
and trailing slash (line 182). -/
def stripSlashes (s : Str) : Str :=
  ((s.dropWhile fun c => c == '/').reverse.dropWhile fun c => c == '/').reverse

/-- Append a filename to the group of a location inside an insertion-ordered
association list, mirroring defaultdict(list) together with the insertion
order of Python dicts. -/
def insertGroup (acc : List (Str × List Str)) (loc fn : Str) : List (Str × List Str) :=
  match acc with
  | [] => [(loc, [fn])]
  | g :: rest =>
    if g.1 = loc then (g.1, g.2 ++ [fn]) :: rest
    else g :: insertGroup rest loc fn

/-- The grouping loop of lines 180-184: strip slashes off the location of
each row and append its filename to that location's group. -/
def buildLocationGroups (rows : List (Str × Str)) : List (Str × List Str) :=
  rows.foldl (fun acc r => insertGroup acc (stripSlashes r.1) r.2) []

/-- One CSV row: a partial map from column name to cell value, where `none`
is a NaN cell. -/
abbrev Row := Str → Option Str

/-- The parsed CSV: its column names and its rows. -/
structure Table where
  cols : List Str
  rows : List Row

/-- dropna on the two configured columns followed by the extraction the
grouping loop performs (lines 173-184): keep exactly the rows where both
cells are present. -/
def cleanRows (pCol fCol : Str) (rows : List Row) : List (Str × Str) :=
  rows.filterMap fun r =>
    match r pCol, r fCol with
    | some p, some f => some (p, f)
    | _, _ => none

/-- Phase 1 aggregation (lines 217-228): the per-group matches are unioned
into one set; `dedup` keeps the first occurrence of each key, a deterministic
stand-in for the unordered Python set. -/
def discoveryMatches (listings : Str → Listing) (groups : List (Str × List Str)) : List Str :=
  ((groups.map (findObjectsForLocation listings)).flatten).dedup

/-- The discovery queries issued by phase 1: exactly one listing call per
location group, carrying the namespaced location and the group's filenames
(from which the single regex of that call is built). -/
def discoveryQueries (groups : List (Str × List Str)) : List (Str × List Str) :=
  groups.map fun g => (fullLocation g.1, g.2)

/-- Result of one whole run of `tag_objects_by_pattern`: the early return on
an unreadable CSV or missing columns (lines 160-171), the early return when
discovery matched nothing (lines 232-235), or a completed run with its
summary counters, total write calls, and matched-object count. -/
inductive RunResult where
  | fatalInput
  | noMatches
  | done (counts : Counters) (writes : Nat) (matched : Nat)
deriving DecidableEq

/-- Embedding of `tag_objects_by_pattern` (lines 137-290): read the CSV,
validate the two configured columns, drop incomplete rows, group by stripped
location, run discovery, stop if nothing matched, otherwise run the tagging
phase; the final store is returned alongside the result. -/
def tagObjectsByPattern (csv : Except Unit Table) (pCol fCol : Str)
    (listings : Str → Listing) (store : Store) (faults : Str → Fault)
    (tagKey tagVal : Str) : RunResult × Store :=
  match csv with
  | .error _ => (.fatalInput, store)
  | .ok df =>
    if pCol ∈ df.cols ∧ fCol ∈ df.cols then
      if (discoveryMatches listings (buildLocationGroups (cleanRows pCol fCol df.rows))).isEmpty then
        (.noMatches, store)
      else
        (.done
          (runTaggingPhase store faults
            (discoveryMatches listings (buildLocationGroups (cleanRows pCol fCol df.rows)))
            tagKey tagVal).counts
          (runTaggingPhase store faults
            (discoveryMatches listings (buildLocationGroups (cleanRows pCol fCol df.rows)))
            tagKey tagVal).writes
          (discoveryMatches listings (buildLocationGroups (cleanRows pCol fCol df.rows))).length,
         (runTaggingPhase store faults
            (discoveryMatches listings (buildLocationGroups (cleanRows pCol fCol df.rows)))
            tagKey tagVal).store)
    else (.fatalInput, store)

/-- All (location, filename) pairs recorded inside a group list, tagged with
their group's location; used to state what the grouping preserves. -/
def flattenGroups (gs : List (Str × List Str)) : List (Str × Str) :=
  (gs.map fun g => g.2.map fun fn => (g.1, fn)).flatten

/-- Does a tag set (of an existing object) contain the target tag key? -/
def hasTarget (tagKey : Str) (o : Option (List Tag)) : Bool :=
  match o with
  | some ts => ts.any fun t => t.key == tagKey
  | none => false

/-! ## Concrete fixtures used by counterexamples and witnesses -/

/-- The tag key the script applies, main.py line 304. -/
def tagKeyPD : Str := "PERMANENT_DELETE".toList

/-- The tag value the script applies, main.py line 305. -/
def tagValC : Str := "CONFIRMED".toList

/-- A concrete object key. -/
def exKey : Str := "TvShows/A/e.mp4".toList

/-- A bucket holding one object that carries one unrelated tag. -/
def exStoreA : Store := fun k =>
  if k = exKey then some [⟨"Env".toList, "prod".toList⟩] else none

/-- A bucket holding one object that already carries the target tag key with
a different value. -/
def exStoreB : Store := fun k =>
  if k = exKey then some [⟨tagKeyPD, "OLD".toList⟩] else none

/-- A fault where get_object_tagging raises a throttling ClientError. -/
def exFaultGet : Fault :=
  ⟨some ("Throttling".toList, "Rate exceeded".toList), none, none⟩

/-- The grouping scenario rows of the spec. -/
def exRows : List (Str × Str) :=
  [("ShowA/S01".toList, "ep01".toList), ("ShowA/S01".toList, "ep02".toList),
   ("ShowB/S01".toList, "ep01".toList)]

/-- The location groups the scenario rows must produce. -/
def exGroupsScenario : List (Str × List Str) :=
  [("ShowA/S01".toList, ["ep01".toList, "ep02".toList]),
   ("ShowB/S01".toList, ["ep01".toList])]

/-- Two location groups for the failure-isolation scenario. -/
def exGroups : List (Str × List Str) :=
  [("A".toList, ["ep01".toList]), ("B".toList, ["ep02".toList])]

/-- Listing oracle where the listing of group A fails with a ClientError
after one page was already delivered and group B succeeds. -/
def exListings : Str → Listing := fun g =>
  if g = "A".toList then Listing.clientErrAfter [["TvShows/A/ep01.mp4".toList]]
  else Listing.allPages [["TvShows/B/ep02.mp4".toList]]

/-- Listing oracle where the listing of group A fails before delivering any
page and group B succeeds. -/
def exListings2 : Str → Listing := fun g =>
  if g = "A".toList then Listing.clientErrAfter []
  else Listing.allPages [["TvShows/B/ep02.mp4".toList]]

/-- A CSV with the two configured columns and no rows. -/
def exTable : Table :=
  ⟨["location_folder".toList, "location_file".toList], []⟩

/-! ## Helper lemmas about `tagSingleObject` -/

/-- The store after the post-get part of one tagging attempt is either
untouched or a point update of the attempted key to the fetched tag set plus
the target entry. -/
lemma tagWithExisting_store_eq (store : Store) (fault : Fault) (k tK tV : Str)
    (es : List Tag) :
    (tagWithExisting store fault k tK tV es).1 = store ∨
    (tagWithExisting store fault k tK tV es).1 = updateStore store k (es ++ [⟨tK, tV⟩]) :=
  by
  unfold tagWithExisting
  repeat' split
  all_goals first
    | exact Or.inl rfl
    | exact Or.inr rfl

/-- The store after one tagging attempt is either untouched or a point update
of the attempted key to the fetched tag set plus the target entry. -/
lemma tagSingleObject_store_eq (store : Store) (fault : Fault) (k tK tV : Str) :
    (tagSingleObject store fault k tK tV).1 = store ∨
    ∃ es, (tagSingleObject store fault k tK tV).1 = updateStore store k (es ++ [⟨tK, tV⟩]) :=
  by
  unfold tagSingleObject
  repeat' split
  all_goals
    first
      | exact Or.inl rfl
      | exact (tagWithExisting_store_eq store fault k tK tV []).imp
          (fun h => h) (fun h => ⟨[], h⟩)
      | (rename_i es _
         exact (tagWithExisting_store_eq store fault k tK tV es).imp
           (fun h => h) (fun h => ⟨es, h⟩))

/-- Fault-free tagging of an existent object: the already-present check
decides between the idempotent no-op and the append-and-write. -/
lemma tagSingleObject_ok_some (store : Store) (k tK tV : Str) (ts : List Tag)
    (h : store k = some ts) :
    tagSingleObject store Fault.ok k tK tV =
      if ts.any (fun t => t.key == tK) then (store, false, ⟨k, true, alreadyMsg⟩)
      else (updateStore store k (ts ++ [⟨tK, tV⟩]), true, ⟨k, true, taggedMsg⟩) :=
  by
  unfold tagSingleObject tagWithExisting Fault.ok
  simp only [h]

/-- Fault-free tagging of a nonexistent object returns the not-found failure
and leaves everything untouched. -/
lemma tagSingleObject_ok_none (store : Store) (k tK tV : Str) (h : store k = none) :
    tagSingleObject store Fault.ok k tK tV = (store, false, ⟨k, false, notFoundMsg⟩) :=
  by
  unfold tagSingleObject Fault.ok
  simp [h]

/-- Fault-free tagging when the target tag key is already present: success
with the already-exists message, no write, store untouched. -/
lemma tagSingleObject_already (store : Store) (k tK tV : Str) (ts : List Tag)
    (hk : store k = some ts) (hany : (ts.any fun t => t.key == tK) = true) :
    tagSingleObject store Fault.ok k tK tV = (store, false, ⟨k, true, alreadyMsg⟩) :=
  by
  rw [tagSingleObject_ok_some store k tK tV ts hk, if_pos hany]

/-- A tag set extended with the target entry contains the target key. -/
lemma hasTarget_append (tK tV : Str) (es : List Tag) :
    hasTarget tK (some (es ++ [⟨tK, tV⟩])) = true :=
  by
  simp [hasTarget]

/-- One tagging attempt never loses the target key from any object. -/
lemma tagSingleObject_hasTarget_mono (store : Store) (fault : Fault) (k k2 tK tV : Str)
    (h : hasTarget tK (store k2) = true) :
    hasTarget tK ((tagSingleObject store fault k tK tV).1 k2) = true :=
  by
  rcases tagSingleObject_store_eq store fault k tK tV with h1 | ⟨es, h1⟩
  · rw [h1]; exact h
  · rw [h1, updateStore]
    by_cases hk : k2 = k
    · simp only [hk, if_pos rfl]
      exact hasTarget_append tK tV es
    · simp only [if_neg hk]
      exact h

/-- One tagging attempt never deletes any object. -/
lemma tagSingleObject_isSome_mono (store : Store) (fault : Fault) (k k2 tK tV : Str)
    (h : (store k2).isSome = true) :
    ((tagSingleObject store fault k tK tV).1 k2).isSome = true :=
  by
  rcases tagSingleObject_store_eq store fault k tK tV with h1 | ⟨es, h1⟩
  · rw [h1]; exact h
  · rw [h1, updateStore]
    by_cases hk : k2 = k
    · simp [hk]
    · simp only [if_neg hk]
      exact h

/-- A fault-free tagging attempt on an existent object leaves that object
carrying the target tag key. -/
lemma tagSingleObject_ok_gains_target (store : Store) (k tK tV : Str)
    (h : (store k).isSome = true) :
    hasTarget tK ((tagSingleObject store Fault.ok k tK tV).1 k) = true :=
  by
  obtain ⟨ts, hts⟩ := Option.isSome_iff_exists.mp h
  rw [tagSingleObject_ok_some store k tK tV ts hts]
  by_cases hany : (ts.any fun t => t.key == tK) = true
  · rw [if_pos hany]
    simp only [hasTarget, hts]
    exact hany
  · rw [if_neg hany]
    simp only [updateStore, if_pos rfl]
    exact hasTarget_append tK tV ts

/-! ## Helper lemmas about the tagging phase -/

/-- Unfolding equation for one step of the tagging phase fold. -/
lemma tagStep_eq (faults : Str → Fault) (tK tV : Str) (st : PhaseState) (k : Str) :
    tagStep faults tK tV st k =
      ⟨(tagSingleObject st.store (faults k) k tK tV).1,
        st.writes + (if (tagSingleObject st.store (faults k) k tK tV).2.1 then 1 else 0),
        classify st.counts (tagSingleObject st.store (faults k) k tK tV).2.2⟩ :=
  rfl

/-- The fold of the tagging phase never loses the target key from any object. -/
lemma foldl_hasTarget_mono (faults : Str → Fault) (tK tV : Str) :
    ∀ (keys : List Str) (st : PhaseState) (k2 : Str),
      hasTarget tK (st.store k2) = true →
      hasTarget tK ((keys.foldl (tagStep faults tK tV) st).store k2) = true :=
  by
  intro keys
  induction keys with
  | nil => intro st k2 h; exact h
  | cons k rest ih =>
    intro st k2 h
    rw [List.foldl_cons]
    exact ih (tagStep faults tK tV st k) k2
      (by rw [tagStep_eq]; exact tagSingleObject_hasTarget_mono st.store (faults k) k k2 tK tV h)

/-- The fold of the tagging phase never deletes any object. -/
lemma foldl_isSome_mono (faults : Str → Fault) (tK tV : Str) :
    ∀ (keys : List Str) (st : PhaseState) (k2 : Str),
      (st.store k2).isSome = true →
      ((keys.foldl (tagStep faults tK tV) st).store k2).isSome = true :=
  by
  intro keys
  induction keys with
  | nil => intro st k2 h; exact h
  | cons k rest ih =>
    intro st k2 h
    rw [List.foldl_cons]
    exact ih (tagStep faults tK tV st k) k2
      (by rw [tagStep_eq]; exact tagSingleObject_isSome_mono st.store (faults k) k k2 tK tV h)

/-- After a fault-free pass of the tagging phase over existent keys, every
processed key carries the target tag key. -/
lemma foldl_gains_target (faults : Str → Fault) (tK tV : Str) :
    ∀ (keys : List Str) (st : PhaseState),
      (∀ k ∈ keys, faults k = Fault.ok) →
      (∀ k ∈ keys, (st.store k).isSome = true) →
      ∀ k ∈ keys, hasTarget tK ((keys.foldl (tagStep faults tK tV) st).store k) = true :=
  by
  intro keys
  induction keys with
  | nil => intro st _ _ k hk; exact absurd hk (List.not_mem_nil k)
  | cons k0 rest ih =>
    intro st hf hs k hk
    rw [List.foldl_cons]
    rcases List.mem_cons.mp hk with rfl | hkr
    · apply foldl_hasTarget_mono
      rw [tagStep_eq, hf k (List.mem_cons_self k rest)]
      exact tagSingleObject_ok_gains_target st.store k tK tV (hs k (List.mem_cons_self k rest))
    · exact ih (tagStep faults tK tV st k0)
        (fun x hx => hf x (List.mem_cons_of_mem k0 hx))
        (fun x hx => by
          rw [tagStep_eq]
          exact tagSingleObject_isSome_mono st.store (faults k0) k0 x tK tV
            (hs x (List.mem_cons_of_mem k0 hx)))
        k hkr

/-- The message comparison driving the already-tagged counter. -/
lemma hasSubstr_already : hasSubstr "already exists".toList alreadyMsg = true :=
  by decide

/-- A successful outcome with the already-exists message bumps the
already-tagged counter. -/
lemma classify_already (c : Counters) (k : Str) :
    classify c ⟨k, true, alreadyMsg⟩ = ⟨c.successful, c.alreadyTagged + 1, c.failed⟩ :=
  by
  unfold classify
  rw [if_pos rfl, if_pos hasSubstr_already]

/-- Any failed outcome bumps the failed counter. -/
lemma classify_failure (c : Counters) (o : Outcome) (h : o.success = false) :
    classify c o = ⟨c.successful, c.alreadyTagged, c.failed + 1⟩ :=
  by
  unfold classify
  rw [if_neg (by simp [h])]

/-- An existing tag set containing the target key, extracted from
`hasTarget`. -/
lemma hasTarget_destruct (tK : Str) (o : Option (List Tag)) (h : hasTarget tK o = true) :
    ∃ ts, o = some ts ∧ (ts.any fun t => t.key == tK) = true :=
  by
  cases o with
  | none => exact absurd h (by simp [hasTarget])
  | some ts =>
    refine ⟨ts, rfl, ?_⟩
    simpa [hasTarget] using h

/-- A pass of the tagging phase over keys that all already carry the target
tag key changes nothing, issues no write call, and counts every key as
already tagged. -/
lemma foldl_all_already (faults : Str → Fault) (tK tV : Str) :
    ∀ (keys : List Str) (st : PhaseState),
      (∀ k ∈ keys, faults k = Fault.ok) →
      (∀ k ∈ keys, hasTarget tK (st.store k) = true) →
      keys.foldl (tagStep faults tK tV) st =
        ⟨st.store, st.writes,
          ⟨st.counts.successful, st.counts.alreadyTagged + keys.length, st.counts.failed⟩⟩ :=
  by
  intro keys
  induction keys with
  | nil =>
    intro st _ _
    obtain ⟨store, writes, ⟨a, b, c⟩⟩ := st
    rfl
  | cons k0 rest ih =>
    intro st hf ht
    have ht0 : hasTarget tK (st.store k0) = true := ht k0 (List.mem_cons_self k0 rest)
    obtain ⟨ts, hts, hany⟩ := hasTarget_destruct tK (st.store k0) ht0
    have hstep : tagStep faults tK tV st k0 =
        ⟨st.store, st.writes,
          ⟨st.counts.successful, st.counts.alreadyTagged + 1, st.counts.failed⟩⟩ :=
      by
      rw [tagStep_eq, hf k0 (List.mem_cons_self k0 rest),
        tagSingleObject_already st.store k0 tK tV ts hts hany]
      rw [classify_already]
      rfl
    rw [List.foldl_cons, hstep,
      ih ⟨st.store, st.writes, ⟨st.counts.successful, st.counts.alreadyTagged + 1, st.counts.failed⟩⟩
        (fun x hx => hf x (List.mem_cons_of_mem k0 hx))
        (fun x hx => ht x (List.mem_cons_of_mem k0 hx))]
    simp [List.length_cons]
    omega

/-- Every classified outcome bumps exactly one of the three counters. -/
lemma classify_total (c : Counters) (o : Outcome) :
    (classify c o).successful + (classify c o).alreadyTagged + (classify c o).failed =
      c.successful + c.alreadyTagged + c.failed + 1 :=
  by
  unfold classify
  repeat' split
  all_goals simp only [Counters.successful, Counters.alreadyTagged, Counters.failed]
  all_goals omega

/-- Classification never decreases the failed counter. -/
lemma classify_failed_le (c : Counters) (o : Outcome) :
    c.failed ≤ (classify c o).failed :=
  by
  unfold classify
  repeat' split
  all_goals simp only [Counters.failed]
  all_goals omega

/-- Every key processed by the tagging phase is counted exactly once. -/
lemma foldl_counts_total (faults : Str → Fault) (tK tV : Str) :
    ∀ (keys : List Str) (st : PhaseState),
      ((keys.foldl (tagStep faults tK tV) st).counts).successful +
        ((keys.foldl (tagStep faults tK tV) st).counts).alreadyTagged +
        ((keys.foldl (tagStep faults tK tV) st).counts).failed =
      st.counts.successful + st.counts.alreadyTagged + st.counts.failed + keys.length :=
  by
  intro keys
  induction keys with
  | nil => intro st; simp
  | cons k rest ih =>
    intro st
    rw [List.foldl_cons, ih (tagStep faults tK tV st k), tagStep_eq]
    simp only [classify_total, List.length_cons]
    omega

/-- The tagging-phase fold never decreases the failed counter. -/
lemma foldl_failed_le (faults : Str → Fault) (tK tV : Str) :
    ∀ (keys : List Str) (st : PhaseState),
      st.counts.failed ≤ ((keys.foldl (tagStep faults tK tV) st).counts).failed :=
  by
  intro keys
  induction keys with
  | nil => intro st; exact Nat.le_refl _
  | cons k rest ih =>
    intro st
    rw [List.foldl_cons]
    exact Nat.le_trans (by rw [tagStep_eq]; exact classify_failed_le st.counts _)
      (ih (tagStep faults tK tV st k))

/-- A nonexistent key whose own tagging attempt is fault-free stays
nonexistent through the whole tagging phase. -/
lemma foldl_store_none (faults : Str → Fault) (tK tV key : Str)
    (hf : faults key = Fault.ok) :
    ∀ (keys : List Str) (st : PhaseState), st.store key = none →
      ((keys.foldl (tagStep faults tK tV) st).store) key = none :=
  by
  intro keys
  induction keys with
  | nil => intro st h; exact h
  | cons k rest ih =>
    intro st h
    rw [List.foldl_cons]
    refine ih (tagStep faults tK tV st k) ?_
    rw [tagStep_eq]
    by_cases hkey : k = key
    · subst hkey
      rw [hf, tagSingleObject_ok_none st.store k tK tV h]
      exact h
    · rcases tagSingleObject_store_eq st.store (faults k) k tK tV with h1 | ⟨es, h1⟩
      · rw [h1]; exact h
      · rw [h1]
        simp only [updateStore]
        rw [if_neg (fun hh => hkey hh.symm)]
        exact h

/-! ## Helper lemmas about the grouping of CSV rows -/

/-- Inserting into a group keeps the key list, or appends the new key. -/
lemma keys_insertGroup (acc : List (Str × List Str)) (loc fn : Str) :
    (insertGroup acc loc fn).map Prod.fst =
      if loc ∈ acc.map Prod.fst then acc.map Prod.fst else acc.map Prod.fst ++ [loc] :=
  by
  induction acc with
  | nil => simp [insertGroup]
  | cons g rest ih =>
    by_cases hgl : g.1 = loc
    · simp [insertGroup, hgl]
    · by_cases hmem : loc ∈ rest.map Prod.fst
      · simp [insertGroup, hgl, ih, hmem, Ne.symm hgl]
      · simp [insertGroup, hgl, ih, hmem, Ne.symm hgl]

/-- Insertion preserves distinctness of group keys. -/
lemma nodup_keys_insertGroup (acc : List (Str × List Str)) (loc fn : Str)
    (h : (acc.map Prod.fst).Nodup) :
    ((insertGroup acc loc fn).map Prod.fst).Nodup :=
  by
  rw [keys_insertGroup]
  split
  · exact h
  · rename_i hmem
    simp [List.nodup_append, h, hmem]

/-- The key already inserted is among the group keys. -/
lemma mem_keys_insertGroup_self (acc : List (Str × List Str)) (loc fn : Str) :
    loc ∈ (insertGroup acc loc fn).map Prod.fst :=
  by
  rw [keys_insertGroup]
  split
  · assumption
  · exact List.mem_append_right _ (List.mem_singleton.mpr rfl)

/-- Insertion never removes a group key. -/
lemma mem_keys_insertGroup_mono (acc : List (Str × List Str)) (loc fn x : Str)
    (h : x ∈ acc.map Prod.fst) :
    x ∈ (insertGroup acc loc fn).map Prod.fst :=
  by
  rw [keys_insertGroup]
  split
  · exact h
  · exact List.mem_append_left _ h

/-- The grouping fold preserves distinctness of group keys. -/
lemma nodup_keys_foldl :
    ∀ (rows : List (Str × Str)) (acc : List (Str × List Str)),
      (acc.map Prod.fst).Nodup →
      ((rows.foldl (fun a r => insertGroup a (stripSlashes r.1) r.2) acc).map Prod.fst).Nodup :=
  by
  intro rows
  induction rows with
  | nil => intro acc h; exact h
  | cons r rest ih =>
    intro acc h
    rw [List.foldl_cons]
    exact ih _ (nodup_keys_insertGroup acc (stripSlashes r.1) r.2 h)

/-- The location groups have pairwise distinct keys. -/
lemma nodup_keys_buildLocationGroups (rows : List (Str × Str)) :
    ((buildLocationGroups rows).map Prod.fst).Nodup :=
  nodup_keys_foldl rows [] (by simp)

/-- The grouping fold never removes a group key. -/
lemma mem_keys_foldl_mono :
    ∀ (rows : List (Str × Str)) (acc : List (Str × List Str)) (x : Str),
      x ∈ acc.map Prod.fst →
      x ∈ ((rows.foldl (fun a r => insertGroup a (stripSlashes r.1) r.2) acc).map Prod.fst) :=
  by
  intro rows
  induction rows with
  | nil => intro acc x h; exact h
  | cons r rest ih =>
    intro acc x h
    rw [List.foldl_cons]
    exact ih _ x (mem_keys_insertGroup_mono acc (stripSlashes r.1) r.2 x h)

/-- Every row's stripped location becomes a group key. -/
lemma mem_keys_foldl :
    ∀ (rows : List (Str × Str)) (acc : List (Str × List Str)) (p f : Str),
      (p, f) ∈ rows →
      stripSlashes p ∈ ((rows.foldl (fun a r => insertGroup a (stripSlashes r.1) r.2) acc).map Prod.fst) :=
  by
  intro rows
  induction rows with
  | nil => intro acc p f h; exact absurd h (List.not_mem_nil _)
  | cons r rest ih =>
    intro acc p f h
    rw [List.foldl_cons]
    rcases List.mem_cons.mp h with rfl | hr
    · exact mem_keys_foldl_mono rest _ (stripSlashes p)
        (mem_keys_insertGroup_self acc (stripSlashes p) f)
    · exact ih _ p f hr

/-- Unfolding equation of `flattenGroups` on a cons. -/
lemma flattenGroups_cons (g : Str × List Str) (gs : List (Str × List Str)) :
    flattenGroups (g :: gs) = (g.2.map fun fn => (g.1, fn)) ++ flattenGroups gs :=
  by
  simp [flattenGroups]

/-- Inserting a row into the groups adds exactly its (location, filename)
pair, up to order. -/
lemma flatten_insertGroup (acc : List (Str × List Str)) (loc fn : Str) :
    List.Perm (flattenGroups (insertGroup acc loc fn)) (flattenGroups acc ++ [(loc, fn)]) :=
  by
  induction acc with
  | nil => simp [insertGroup, flattenGroups]
  | cons g rest ih =>
    by_cases hgl : g.1 = loc
    · subst hgl
      rw [show insertGroup (g :: rest) g.1 fn = (g.1, g.2 ++ [fn]) :: rest from
          by simp [insertGroup]]
      rw [flattenGroups_cons, flattenGroups_cons]
      simp only [List.map_append, List.map_cons, List.map_nil]
      rw [List.append_assoc, List.append_assoc]
      exact List.Perm.append_left _ List.perm_append_comm
    · rw [show insertGroup (g :: rest) loc fn = g :: insertGroup rest loc fn from
          by simp [insertGroup, hgl]]
      rw [flattenGroups_cons, flattenGroups_cons]
      rw [List.append_assoc]
      exact List.Perm.append_left _ ih

/-- The grouping fold preserves the multiset of (stripped location, filename)
pairs of the rows it consumes. -/
lemma flatten_foldl :
    ∀ (rows : List (Str × Str)) (acc : List (Str × List Str)),
      List.Perm (flattenGroups (rows.foldl (fun a r => insertGroup a (stripSlashes r.1) r.2) acc))
        (flattenGroups acc ++ rows.map fun r => (stripSlashes r.1, r.2)) :=
  by
  intro rows
  induction rows with
  | nil => intro acc; simp
  | cons r rest ih =>
    intro acc
    rw [List.foldl_cons]
    refine (ih (insertGroup acc (stripSlashes r.1) r.2)).trans ?_
    refine List.Perm.trans
      (List.Perm.append_right _ (flatten_insertGroup acc (stripSlashes r.1) r.2)) ?_
    rw [List.append_assoc, List.map_cons]
    exact List.Perm.refl _

/-- The groups hold exactly the (stripped location, filename) pairs of the
input rows, up to order. -/
lemma flatten_buildLocationGroups (rows : List (Str × Str)) :
    List.Perm (flattenGroups (buildLocationGroups rows))
      (rows.map fun r => (stripSlashes r.1, r.2)) :=
  by
  have h := flatten_foldl rows []
  simpa [flattenGroups] using h

/-! ## Helper lemmas about the match predicate -/

/-- Semantics of the tail pattern: a newline-free middle, the literal
extension, and the optional trailing newline a final dollar tolerates. -/
lemma tailMatches_iff (s : Str) :
    tailMatches s = true ↔
      ∃ mid : Str, '\n' ∉ mid ∧
        (s = mid ++ ".mp4".toList ∨ s = mid ++ ".mp4\n".toList) :=
  by
  have h4 : ".mp4".toList.length = 4 := rfl
  have h5 : ".mp4\n".toList.length = 5 := rfl
  unfold tailMatches
  rw [Bool.or_eq_true, Bool.and_eq_true, Bool.and_eq_true]
  constructor
  · rintro (⟨hsuf, hnl⟩ | ⟨hsuf, hnl⟩)
    · obtain ⟨t, ht⟩ := List.isSuffixOf_iff_suffix.mp hsuf
      have htake : s.take (s.length - 4) = t := by
        rw [← ht, List.length_append, h4, Nat.add_sub_cancel, List.take_left]
      rw [htake] at hnl
      exact ⟨t, by simpa using hnl, Or.inl ht.symm⟩
    · obtain ⟨t, ht⟩ := List.isSuffixOf_iff_suffix.mp hsuf
      have htake : s.take (s.length - 5) = t := by
        rw [← ht, List.length_append, h5, Nat.add_sub_cancel, List.take_left]
      rw [htake] at hnl
      exact ⟨t, by simpa using hnl, Or.inr ht.symm⟩
  · rintro ⟨mid, hnl, rfl | rfl⟩
    · left
      refine ⟨List.isSuffixOf_iff_suffix.mpr ⟨mid, rfl⟩, ?_⟩
      rw [List.length_append, h4, Nat.add_sub_cancel, List.take_left]
      simpa using hnl
    · right
      refine ⟨List.isSuffixOf_iff_suffix.mpr ⟨mid, rfl⟩, ?_⟩
      rw [List.length_append, h5, Nat.add_sub_cancel, List.take_left]
      simpa using hnl

/-- Semantics of the whole discovery pattern for one group. -/
lemma keyMatchesGroup_iff (loc : Str) (fns : List Str) (k : Str) :
    keyMatchesGroup loc fns k = true ↔
      ∃ fn ∈ fns, ∃ mid : Str, '\n' ∉ mid ∧
        (k = loc ++ fn ++ mid ++ ".mp4".toList ∨ k = loc ++ fn ++ mid ++ ".mp4\n".toList) :=
  by
  unfold keyMatchesGroup
  rw [List.any_eq_true]
  constructor
  · rintro ⟨fn, hfn, hb⟩
    rw [Bool.and_eq_true] at hb
    obtain ⟨hpre, htail⟩ := hb
    obtain ⟨rest, hrest⟩ := List.isPrefixOf_iff_prefix.mp hpre
    have hdrop : k.drop (loc ++ fn).length = rest := by rw [← hrest, List.drop_left]
    rw [hdrop] at htail
    obtain ⟨mid, hnl, hcase⟩ := (tailMatches_iff rest).mp htail
    refine ⟨fn, hfn, mid, hnl, ?_⟩
    rcases hcase with rfl | rfl
    · left; rw [← hrest]; simp [List.append_assoc]
    · right; rw [← hrest]; simp [List.append_assoc]
  · rintro ⟨fn, hfn, mid, hnl, hcase⟩
    refine ⟨fn, hfn, ?_⟩
    rw [Bool.and_eq_true]
    rcases hcase with rfl | rfl
    · refine ⟨List.isPrefixOf_iff_prefix.mpr ⟨mid ++ ".mp4".toList, by simp [List.append_assoc]⟩, ?_⟩
      have hshape : loc ++ fn ++ mid ++ ".mp4".toList = (loc ++ fn) ++ (mid ++ ".mp4".toList) := by
        simp [List.append_assoc]
      rw [hshape, List.drop_left]
      exact (tailMatches_iff _).mpr ⟨mid, hnl, Or.inl rfl⟩
    · refine ⟨List.isPrefixOf_iff_prefix.mpr ⟨mid ++ ".mp4\n".toList, by simp [List.append_assoc]⟩, ?_⟩
      have hshape : loc ++ fn ++ mid ++ ".mp4\n".toList = (loc ++ fn) ++ (mid ++ ".mp4\n".toList) := by
        simp [List.append_assoc]
      rw [hshape, List.drop_left]
      exact (tailMatches_iff _).mpr ⟨mid, hnl, Or.inr rfl⟩

/-! ## Claims -/

/-- Claim C1 counterexample: when get_object_tagging fails with a
non-NoSuchKey ClientError (here a throttling error), tag_single_object
proceeds with an empty existing tag set and its write replaces the whole
remote tag set with just the target entry, so the existing tag with the
different key Env is removed — contradicting the claim that a tagging
attempt never removes a differently-keyed existing tag, for every outcome of
the get-tags call. -/
theorem c1_counterexample :
    exStoreA exKey = some [⟨"Env".toList, "prod".toList⟩] ∧
    (tagSingleObject exStoreA exFaultGet exKey tagKeyPD tagValC).1 exKey =
      some [⟨tagKeyPD, tagValC⟩] ∧
    "Env".toList ≠ tagKeyPD ∧
    (⟨"Env".toList, "prod".toList⟩ : Tag) ∉ [(⟨tagKeyPD, tagValC⟩ : Tag)] :=
  ⟨by decide, by decide, by decide, by decide⟩

/-- Claim C1 (amended): whenever the get-tags call does not fail with a
non-not-found error (and no unexpected exception intervenes), a tagging
attempt leaves every other key untouched and either leaves the attempted
key's tag set unchanged or replaces it by exactly the fetched tag set plus
the single target entry — so no differently-keyed existing tag is removed or
overwritten. -/
theorem c1_tagging_preserves_other_tags (store : Store) (fault : Fault) (key tK tV : Str)
    (hget : fault.getErr = none) (hunex : fault.unexpectedErr = none) :
    (∀ k2, k2 ≠ key → (tagSingleObject store fault key tK tV).1 k2 = store k2) ∧
    ((tagSingleObject store fault key tK tV).1 key = store key ∨
      ∃ ts, store key = some ts ∧ (ts.any fun t => t.key == tK) = false ∧
        (tagSingleObject store fault key tK tV).1 key = some (ts ++ [⟨tK, tV⟩])) :=
  by
  constructor
  · intro k2 hk2
    rcases tagSingleObject_store_eq store fault key tK tV with h1 | ⟨es, h1⟩
    · rw [h1]
    · rw [h1]
      simp only [updateStore]
      rw [if_neg hk2]
  · obtain ⟨g, p, u⟩ := fault
    obtain rfl : g = none := hget
    obtain rfl : u = none := hunex
    cases hsk : store key with
    | none =>
      left
      have heq : tagSingleObject store ⟨none, p, none⟩ key tK tV =
          (store, false, ⟨key, false, notFoundMsg⟩) := by
        unfold tagSingleObject
        simp [hsk]
      rw [heq]
      exact hsk
    | some ts =>
      by_cases hany : (ts.any fun t => t.key == tK) = true
      · left
        have heq : tagSingleObject store ⟨none, p, none⟩ key tK tV =
            (store, false, ⟨key, true, alreadyMsg⟩) := by
          unfold tagSingleObject tagWithExisting
          simp [hsk, hany]
        rw [heq]
        exact hsk
      · cases p with
        | some cm =>
          left
          have heq : tagSingleObject store ⟨none, some cm, none⟩ key tK tV =
              (store, true, ⟨key, false, awsErrMsg cm.1 cm.2⟩) := by
            unfold tagSingleObject tagWithExisting
            simp [hsk, hany]
          rw [heq]
          exact hsk
        | none =>
          right
          refine ⟨ts, rfl, by simpa using hany, ?_⟩
          have heq := tagSingleObject_ok_some store key tK tV ts hsk
          rw [show (⟨none, none, none⟩ : Fault) = Fault.ok from rfl, heq,
            if_neg hany]
          simp [updateStore]

/-- Claim C1 witness: on a fault-free attempt the tag set of an unrelated
key is untouched. -/
theorem c1_witness :
    (tagSingleObject exStoreA Fault.ok exKey tagKeyPD tagValC).1 "other".toList =
      exStoreA "other".toList :=
  (c1_tagging_preserves_other_tags exStoreA Fault.ok exKey tagKeyPD tagValC rfl rfl).1
    "other".toList (by decide)

/-- Claim C2 (confirmed): when the remote calls are fault-free and the
matched keys exist, an object already carrying the target tag key is reported
as success with the already-exists message and no write call, and a second
pass of the tagging phase over the same matched-key set changes no store
entry, issues zero write calls, and counts every key as already tagged and
none as newly tagged. -/
theorem c2_tagging_phase_idempotent (store : Store) (faults : Str → Fault)
    (keys : List Str) (tK tV : Str)
    (hf : ∀ k ∈ keys, faults k = Fault.ok)
    (hs : ∀ k ∈ keys, (store k).isSome = true) :
    (∀ (st2 : Store) (k : Str) (ts : List Tag), st2 k = some ts →
        (ts.any fun t => t.key == tK) = true →
        tagSingleObject st2 Fault.ok k tK tV = (st2, false, ⟨k, true, alreadyMsg⟩)) ∧
    runTaggingPhase (runTaggingPhase store faults keys tK tV).store faults keys tK tV =
      ⟨(runTaggingPhase store faults keys tK tV).store, 0, ⟨0, keys.length, 0⟩⟩ :=
  by
  constructor
  · intro st2 k ts hk hany
    exact tagSingleObject_already st2 k tK tV ts hk hany
  · have h1 : ∀ k ∈ keys,
        hasTarget tK ((runTaggingPhase store faults keys tK tV).store k) = true :=
      fun k hk => foldl_gains_target faults tK tV keys ⟨store, 0, Counters.zero⟩ hf hs k hk
    have h2 := foldl_all_already faults tK tV keys
      ⟨(runTaggingPhase store faults keys tK tV).store, 0, Counters.zero⟩ hf h1
    unfold runTaggingPhase at h2 ⊢
    simpa [Counters.zero] using h2

/-- Claim C2 witness: a second pass over a one-key set reports one
already-tagged key, zero writes, and an unchanged store. -/
theorem c2_witness :
    runTaggingPhase (runTaggingPhase exStoreA (fun _ => Fault.ok) [exKey] tagKeyPD tagValC).store
        (fun _ => Fault.ok) [exKey] tagKeyPD tagValC =
      ⟨(runTaggingPhase exStoreA (fun _ => Fault.ok) [exKey] tagKeyPD tagValC).store, 0,
        ⟨0, 1, 0⟩⟩ :=
  (c2_tagging_phase_idempotent exStoreA (fun _ => Fault.ok) [exKey] tagKeyPD tagValC
    (fun _ _ => rfl) (by decide)).2

/-- Claim C9 (confirmed): the already-present check compares tag keys only —
an object whose tag set carries the target key with a different value is
reported as success with the already-exists message, no write call is issued,
and the tag's value is not updated (the store is unchanged). -/
theorem c9_already_check_is_key_only (store : Store) (fault : Fault)
    (key tK tV v : Str) (ts : List Tag)
    (hget : fault.getErr = none) (hunex : fault.unexpectedErr = none)
    (hk : store key = some ts) (hmem : (⟨tK, v⟩ : Tag) ∈ ts) (_hne : v ≠ tV) :
    tagSingleObject store fault key tK tV = (store, false, ⟨key, true, alreadyMsg⟩) :=
  by
  obtain ⟨g, p, u⟩ := fault
  obtain rfl : g = none := hget
  obtain rfl : u = none := hunex
  have hany : (ts.any fun t => t.key == tK) = true :=
    List.any_eq_true.mpr ⟨⟨tK, v⟩, hmem, by simp⟩
  unfold tagSingleObject tagWithExisting
  simp [hk, hany]

/-- Claim C9 witness: the target key with value OLD is detected as already
present and the value is not rewritten to CONFIRMED. -/
theorem c9_witness :
    tagSingleObject exStoreB Fault.ok exKey tagKeyPD tagValC =
      (exStoreB, false, ⟨exKey, true, alreadyMsg⟩) :=
  c9_already_check_is_key_only exStoreB Fault.ok exKey tagKeyPD tagValC "OLD".toList
    [⟨tagKeyPD, "OLD".toList⟩] rfl rfl (by decide) (by decide) (by decide)

/-- The namespacing of a location is injective, so distinct group keys give
distinct discovery queries. -/
lemma fullLocation_injective : Function.Injective fullLocation :=
  by
  intro a b h
  unfold fullLocation at h
  exact List.append_cancel_left (List.append_cancel_right h)

/-- Claim C3 (confirmed): exactly one discovery query is issued per distinct
(stripped) location prefix, regardless of how many filenames the group holds:
the query list has one entry per group, group keys are pairwise distinct,
every row's stripped location owns a group, and the scenario rows produce
exactly the two groups ShowA/S01 with ep01 and ep02 and ShowB/S01 with ep01,
hence exactly two discovery queries. -/
theorem c3_one_query_per_location (rows : List (Str × Str)) :
    (discoveryQueries (buildLocationGroups rows)).length = (buildLocationGroups rows).length ∧
    ((buildLocationGroups rows).map Prod.fst).Nodup ∧
    ((discoveryQueries (buildLocationGroups rows)).map Prod.fst).Nodup ∧
    (∀ p f, (p, f) ∈ rows → stripSlashes p ∈ (buildLocationGroups rows).map Prod.fst) ∧
    buildLocationGroups exRows = exGroupsScenario ∧
    (discoveryQueries (buildLocationGroups exRows)).length = 2 :=
  by
  refine ⟨List.length_map _ _, nodup_keys_buildLocationGroups rows, ?_, ?_, by decide, by decide⟩
  · have he : (discoveryQueries (buildLocationGroups rows)).map Prod.fst =
        ((buildLocationGroups rows).map Prod.fst).map fullLocation := by
      simp [discoveryQueries, List.map_map, Function.comp]
    rw [he]
    exact (nodup_keys_buildLocationGroups rows).map fullLocation_injective
  · intro p f hpf
    exact mem_keys_foldl rows [] p f hpf

/-- Claim C4 counterexample: the key that is exactly the namespaced location,
the filename ep01, a middle consisting of one newline character, and the
.mp4 extension does not match the discovery pattern, because the dot of a
Python regex does not match a newline — contradicting the claim that any
characters may stand between the filename and the extension. -/
theorem c4_counterexample :
    keyMatchesGroup (fullLocation "ShowA/S01".toList) ["ep01".toList]
      "TvShows/ShowA/S01/ep01\n.mp4".toList = false ∧
    "TvShows/ShowA/S01/ep01\n.mp4".toList =
      fullLocation "ShowA/S01".toList ++ "ep01".toList ++ "\n".toList ++ ".mp4".toList :=
  ⟨by decide, by decide⟩

/-- Claim C4 (amended): the discovery pattern matches a key exactly when the
key is the namespaced location, one of the group's filenames taken literally,
a run of characters none of which is a newline, and the literal .mp4
extension, optionally followed by one trailing newline (tolerated by the
final dollar anchor); in particular both scenario keys for ep01 match. -/
theorem c4_pattern_semantics (loc : Str) (fns : List Str) (k : Str) :
    (keyMatchesGroup loc fns k = true ↔
      ∃ fn ∈ fns, ∃ mid : Str, '\n' ∉ mid ∧
        (k = loc ++ fn ++ mid ++ ".mp4".toList ∨ k = loc ++ fn ++ mid ++ ".mp4\n".toList)) ∧
    keyMatchesGroup (fullLocation "ShowA/S01".toList) ["ep01".toList]
      "TvShows/ShowA/S01/ep01_1080p.mp4".toList = true ∧
    keyMatchesGroup (fullLocation "ShowA/S01".toList) ["ep01".toList]
      "TvShows/ShowA/S01/ep01_720p.mp4".toList = true :=
  ⟨keyMatchesGroup_iff loc fns k, by decide, by decide⟩

/-- Claim C5 counterexample: group A's listing fails with a ClientError after
one page was delivered, yet the key of that page still enters the aggregated
match set, which therefore differs from the matches of the one succeeding
group B — contradicting the claim that a group whose listing fails
contributes zero matches. -/
theorem c5_counterexample :
    exListings "A".toList = Listing.clientErrAfter [["TvShows/A/ep01.mp4".toList]] ∧
    "TvShows/A/ep01.mp4".toList ∈ discoveryMatches exListings exGroups ∧
    findObjectsForLocation exListings ("B".toList, ["ep02".toList]) =
      ["TvShows/B/ep02.mp4".toList] ∧
    discoveryMatches exListings exGroups ≠ ["TvShows/B/ep02.mp4".toList] :=
  ⟨by decide, by decide, by decide, by decide⟩

/-- Claim C5 (amended): listing failures are isolated per group — the
aggregated match set is exactly the union over all groups of the matches each
group's listing delivered before any failure; a group whose listing fails
before delivering a page, and a group whose listing fails with a
non-ClientError exception, contribute zero matches. -/
theorem c5_failure_isolation (listings : Str → Listing)
    (groups : List (Str × List Str)) (k : Str) :
    (k ∈ discoveryMatches listings groups ↔
      ∃ g ∈ groups, k ∈ findObjectsForLocation listings g) ∧
    (∀ g ∈ groups, listings g.1 = Listing.clientErrAfter [] →
      findObjectsForLocation listings g = []) ∧
    (∀ g ∈ groups, listings g.1 = Listing.unexpectedFailure →
      findObjectsForLocation listings g = []) :=
  by
  refine ⟨?_, ?_, ?_⟩
  · unfold discoveryMatches
    rw [List.mem_dedup, List.mem_flatten]
    constructor
    · rintro ⟨l, hl, hk⟩
      obtain ⟨g, hg, rfl⟩ := List.mem_map.mp hl
      exact ⟨g, hg, hk⟩
    · rintro ⟨g, hg, hk⟩
      exact ⟨_, List.mem_map.mpr ⟨g, hg, rfl⟩, hk⟩
  · intro g _ h
    simp [findObjectsForLocation, listMatchingObjects, h]
  · intro g _ h
    simp [findObjectsForLocation, listMatchingObjects, h]

/-- Claim C5 witness: a group whose listing fails before delivering any page
contributes zero matches. -/
theorem c5_witness :
    findObjectsForLocation exListings2 ("A".toList, ["ep01".toList]) = [] :=
  (c5_failure_isolation exListings2 exGroups []).2.1 ("A".toList, ["ep01".toList])
    (by decide) (by decide)

/-- Claim C6 (confirmed): rows with a missing location or filename cell are
dropped and influence no group, and each remaining row contributes its
(stripped location, filename) pair to exactly one group — the group keys are
pairwise distinct and the groups' content is a permutation of the cleaned
rows' pairs. -/
theorem c6_row_cleaning_and_grouping (pCol fCol : Str) (rows : List Row) :
    ((buildLocationGroups (cleanRows pCol fCol rows)).map Prod.fst).Nodup ∧
    List.Perm (flattenGroups (buildLocationGroups (cleanRows pCol fCol rows)))
      ((cleanRows pCol fCol rows).map fun r => (stripSlashes r.1, r.2)) ∧
    cleanRows pCol fCol rows =
      cleanRows pCol fCol (rows.filter fun r => (r pCol).isSome && (r fCol).isSome) :=
  by
  refine ⟨nodup_keys_buildLocationGroups _, flatten_buildLocationGroups _, ?_⟩
  induction rows with
  | nil => rfl
  | cons r rest ih =>
    cases hp : r pCol with
    | none => simpa [cleanRows, List.filter_cons, hp] using ih
    | some p =>
      cases hfc : r fCol with
      | none => simpa [cleanRows, List.filter_cons, hp, hfc] using ih
      | some f => simpa [cleanRows, List.filter_cons, hp, hfc] using ih

/-- Claim C7 (confirmed): a nonexistent key is reported as a not-found
failure whose message differs from every remote-error and unexpected-error
message; the tagging phase still counts every key exactly once and, when such
a key is among the matched keys, the failure count is at least one. -/
theorem c7_not_found_reported_distinctly (store : Store) (faults : Str → Fault)
    (keys : List Str) (tK tV key : Str)
    (h1 : store key = none) (h2 : faults key = Fault.ok) (h3 : key ∈ keys) :
    tagSingleObject store Fault.ok key tK tV = (store, false, ⟨key, false, notFoundMsg⟩) ∧
    (∀ c m, notFoundMsg ≠ awsErrMsg c m) ∧
    (∀ s, notFoundMsg ≠ unexpectedMsg s) ∧
    ((runTaggingPhase store faults keys tK tV).counts.successful +
      (runTaggingPhase store faults keys tK tV).counts.alreadyTagged +
      (runTaggingPhase store faults keys tK tV).counts.failed = keys.length) ∧
    1 ≤ (runTaggingPhase store faults keys tK tV).counts.failed :=
  by
  refine ⟨tagSingleObject_ok_none store key tK tV h1, ?_, ?_, ?_, ?_⟩
  · intro c m h
    have h4 : notFoundMsg.take 4 = (awsErrMsg c m).take 4 := by rw [h]
    have h5 : "Obje".toList = "AWS ".toList := h4
    exact absurd h5 (by decide)
  · intro s h
    have h4 : notFoundMsg.take 4 = (unexpectedMsg s).take 4 := by rw [h]
    have h5 : "Obje".toList = "Unex".toList := h4
    exact absurd h5 (by decide)
  · have h4 := foldl_counts_total faults tK tV keys ⟨store, 0, Counters.zero⟩
    unfold runTaggingPhase
    simpa [Counters.zero] using h4
  · obtain ⟨s, t, rfl⟩ := List.append_of_mem h3
    unfold runTaggingPhase
    rw [List.foldl_append, List.foldl_cons]
    have hnone : (List.foldl (tagStep faults tK tV) ⟨store, 0, Counters.zero⟩ s).store key =
        none := foldl_store_none faults tK tV key h2 s _ h1
    refine Nat.le_trans ?_
      (foldl_failed_le faults tK tV t
        (tagStep faults tK tV (List.foldl (tagStep faults tK tV) ⟨store, 0, Counters.zero⟩ s) key))
    rw [tagStep_eq, h2, tagSingleObject_ok_none _ _ _ _ hnone, classify_failure _ _ rfl]
    exact Nat.succ_le_succ (Nat.zero_le _)

/-- Claim C7 witness: tagging a missing key is a not-found failure. -/
theorem c7_witness :
    tagSingleObject exStoreA Fault.ok "TvShows/missing.mp4".toList tagKeyPD tagValC =
      (exStoreA, false, ⟨"TvShows/missing.mp4".toList, false, notFoundMsg⟩) :=
  (c7_not_found_reported_distinctly exStoreA (fun _ => Fault.ok)
    ["TvShows/missing.mp4".toList] tagKeyPD tagValC "TvShows/missing.mp4".toList
    (by decide) rfl (by decide)).1

/-- Claim C8 (confirmed): the run returns the fatal-input result exactly when
the CSV is unreadable or a configured column is missing; on every other
input the run completes with either the no-matches early return (store
untouched) or a full summary in which every matched key is counted exactly
once across the three counters — per-object and per-group errors are
absorbed into outcomes and never abort the run. -/
theorem c8_fatal_only_on_bad_input (pCol fCol : Str) (listings : Str → Listing)
    (store : Store) (faults : Str → Fault) (tK tV : Str) :
    ((tagObjectsByPattern (Except.error ()) pCol fCol listings store faults tK tV).1 =
      RunResult.fatalInput) ∧
    (∀ df : Table,
      ((tagObjectsByPattern (Except.ok df) pCol fCol listings store faults tK tV).1 =
        RunResult.fatalInput ↔ (pCol ∉ df.cols ∨ fCol ∉ df.cols))) ∧
    (∀ csv : Except Unit Table,
      (tagObjectsByPattern csv pCol fCol listings store faults tK tV).1 =
        RunResult.fatalInput ∨
      ((tagObjectsByPattern csv pCol fCol listings store faults tK tV).1 =
          RunResult.noMatches ∧
        (tagObjectsByPattern csv pCol fCol listings store faults tK tV).2 = store) ∨
      (∃ c w n, (tagObjectsByPattern csv pCol fCol listings store faults tK tV).1 =
          RunResult.done c w n ∧ c.successful + c.alreadyTagged + c.failed = n)) :=
  by
  refine ⟨rfl, ?_, ?_⟩
  · intro df
    by_cases h : pCol ∈ df.cols ∧ fCol ∈ df.cols
    · simp only [tagObjectsByPattern]
      rw [if_pos h]
      split
      · simp [h.1, h.2]
      · simp [h.1, h.2]
    · have hfatal : (tagObjectsByPattern (Except.ok df) pCol fCol listings store
          faults tK tV).1 = RunResult.fatalInput := by
        simp only [tagObjectsByPattern]
        rw [if_neg h]
      exact iff_of_true hfatal (not_and_or.mp h)
  · intro csv
    cases csv with
    | error e => exact Or.inl rfl
    | ok df =>
      by_cases h : pCol ∈ df.cols ∧ fCol ∈ df.cols
      · simp only [tagObjectsByPattern]
        rw [if_pos h]
        split
        · exact Or.inr (Or.inl ⟨rfl, rfl⟩)
        · refine Or.inr (Or.inr ⟨_, _, _, rfl, ?_⟩)
          have h4 := foldl_counts_total faults tK tV
            (discoveryMatches listings (buildLocationGroups (cleanRows pCol fCol df.rows)))
            ⟨store, 0, Counters.zero⟩
          unfold runTaggingPhase
          simpa [Counters.zero] using h4
      · refine Or.inl ?_
        simp only [tagObjectsByPattern]
        rw [if_neg h]

/-- Claim C10 (confirmed): when discovery matches nothing, the run returns
the no-matches early result before the tagging phase — no get-tags or
put-tags call is made, the remote tag state is returned unchanged, and no
summary is produced. -/
theorem c10_no_matches_early_return (df : Table) (pCol fCol : Str)
    (listings : Str → Listing) (store : Store) (faults : Str → Fault) (tK tV : Str)
    (hc : pCol ∈ df.cols ∧ fCol ∈ df.cols)
    (hempty : discoveryMatches listings (buildLocationGroups (cleanRows pCol fCol df.rows)) =
      []) :
    tagObjectsByPattern (Except.ok df) pCol fCol listings store faults tK tV =
      (RunResult.noMatches, store) :=
  by
  simp only [tagObjectsByPattern]
  rw [if_pos hc, hempty]
  rfl

/-- Claim C10 witness: an empty CSV matches nothing and returns early with
the store untouched. -/
theorem c10_witness :
    tagObjectsByPattern (Except.ok exTable) "location_folder".toList "location_file".toList
        (fun _ => Listing.allPages []) exStoreA (fun _ => Fault.ok) tagKeyPD tagValC =
      (RunResult.noMatches, exStoreA) :=
  c10_no_matches_early_return exTable "location_folder".toList "location_file".toList
    (fun _ => Listing.allPages []) exStoreA (fun _ => Fault.ok) tagKeyPD tagValC
    (by decide) (by decide)

end S3Tagger
